import Mathlib

/-!
Verification of the gesture-to-page-turn core of the "living book" reader.

Embedded components (translated from the TypeScript source):

* `Book3D.tsx` — the page-turn animator: drag-follow physics
  (`gestureEffectRun`, mirroring the gesture-physics effect body), the
  release/snap resolution (`snapResolveTarget`), the per-frame snap
  interpolation (`snapStep`), and the surrounding component state machine
  (`bookStep` on `BookState`, with the completion callback's page payloads
  collected as a list).
* `BookView.tsx` — the hand-mode debounce/latch controller (`handStep`).
* `useOpticalFlow.ts` — the block-matching optical-flow extractor
  (`bestMatch`, `validOffsets`, `processFrameEmit`).

JavaScript numbers are embedded as ℚ (all constants involved are exact in ℚ),
grayscale pixel values and block-matching offsets as ℤ.
-/

/-- Page-turn direction; the values of Book3D's `turningDirection` state. -/
inductive Dir
  | next
  | prev
deriving DecidableEq

/-- Animator state owned by Book3D: `currentRotation`, `turningDirection`,
and the `dragAccumulator` ref. -/
structure TurnState where
  rotation : ℚ
  direction : Option Dir
  dragAccumulator : ℚ
deriving DecidableEq

/-- Book3D: `Math.max(-180, Math.min(0, r))`, the clamp applied to the raw
accumulator before easing. -/
def clampRot (r : ℚ) : ℚ := max (-180) (min 0 r)

/-- Book3D: cubic ease-out `1 - Math.pow(1 - progress, 3)`. -/
def easeOutCubic (p : ℚ) : ℚ := 1 - (1 - p) ^ 3

/-- Book3D drag-follow rotation while `turningDirection === 'next'`
(lines 62-72): clamp the accumulator to [-180, 0], apply the cubic
ease-out to the progress `|rot| / 180`, and scale back to [-180, 0]. -/
def easedNextRotation (acc : ℚ) : ℚ :=
  -180 * easeOutCubic (abs (clampRot acc) / 180)

/-- Book3D drag-follow rotation while `turningDirection === 'prev'`
(lines 73-83): the page starts at -180 and moves toward 0 as the
accumulator grows, with progress `(180 + rot) / 180` eased. -/
def easedPrevRotation (acc : ℚ) : ℚ :=
  -180 + 180 * easeOutCubic ((180 + clampRot (-180 + acc)) / 180)

/-- One run of Book3D's gesture-physics effect body (lines 35-85).
Mirrors the source exactly: an early return when the gesture is inactive or
the delta is zero; the accumulator update; direction selection from the
*updated* accumulator guarded by page bounds (`currentPage < pages.length - 1`
for `next`, `currentPage > 0` for `prev`); and the eased rotation update,
which reads the `turningDirection` value captured at the start of the run
(React state), hence the rotation `match` is on the *old* direction. -/
def gestureEffectRun (numPages page : ℕ) (isGestureActive : Bool)
    (delta : ℚ) (s : TurnState) : TurnState :=
  if !isGestureActive then s
  else if delta = 0 then s
  else
    let acc := s.dragAccumulator + delta
    let dir : Option Dir :=
      match s.direction with
      | none =>
          if acc ≤ -10 ∧ page < numPages - 1 then some Dir.next
          else if 10 ≤ acc ∧ 0 < page then some Dir.prev
          else none
      | some d => some d
    let rot : ℚ :=
      match s.direction with
      | some Dir.next => easedNextRotation acc
      | some Dir.prev => easedPrevRotation acc
      | none => s.rotation
    ⟨rot, dir, acc⟩

/-- Processing of one injected gesture signal.  Setting `turningDirection`
re-renders the component and re-runs the effect with the same signal (the
direction is in the effect's dependency array), so when the direction
changes the effect body runs a second time, accumulating the delta again —
this is faithful to the React semantics of the source. -/
def processGesture (numPages page : ℕ) (delta : ℚ) (s : TurnState) : TurnState :=
  if (gestureEffectRun numPages page true delta s).direction = s.direction then
    gestureEffectRun numPages page true delta s
  else
    gestureEffectRun numPages page true delta (gestureEffectRun numPages page true delta s)

/-- Book3D release handling (lines 88-112): on gesture end while turning,
compare `currentRotation` with the midpoint threshold `-90` and pick the
snap target rotation and the page index reported on completion. -/
def snapResolveTarget (d : Dir) (currentRotation : ℚ) (currentPage : ℕ) : ℚ × ℕ :=
  match d with
  | Dir.next =>
      if currentRotation < -90 then (-180, currentPage + 1)
      else (0, currentPage)
  | Dir.prev =>
      if -90 < currentRotation then (0, currentPage - 1)
      else (-180, currentPage)

/-- The raw snap interpolation applied each animation frame while outside
the 2-degree epsilon: `prev + diff * 0.22`. -/
def snapPure (targetRot rot : ℚ) : ℚ := rot + (targetRot - rot) * (22 / 100)

/-- One `animateSnap` rotation update (Book3D lines 116-134): return the
target once within the 2-degree epsilon, otherwise interpolate by 22% of
the remaining distance. -/
def snapStep (targetRot rot : ℚ) : ℚ :=
  if |targetRot - rot| < 2 then targetRot else snapPure targetRot rot

/-- Iterated snap frames. -/
def snapIter (targetRot : ℚ) : ℕ → ℚ → ℚ
  | 0, r => r
  | k + 1, r => snapStep targetRot (snapIter targetRot k r)

/-- Whole-component state: the animator's `TurnState`, the shell-owned
`currentPage`, and — while the release animation is running — the snap
target (rotation, completion page) chosen at release. -/
structure BookState where
  ts : TurnState
  page : ℕ
  snapTo : Option (ℚ × ℕ)
deriving DecidableEq

/-- Initial state: page 0, rotation 0, no direction, empty accumulator. -/
def bookInit : BookState := ⟨⟨0, none, 0⟩, 0, none⟩

/-- Events driving the component: an injected gesture signal (gesture
active), gesture end (release), one snap animation frame, and an external
page-index change. -/
inductive BookEvent
  | signal (delta : ℚ)
  | release
  | frame
  | setPage (p : ℕ)

/-- One event step of the Book3D component.  Returns the new state and the
list of `onPageTurnComplete` payloads fired during the step.

* `signal`: the gesture effect processes the delta (a gesture becoming
  active cancels a pending snap animation, as the snap effect's cleanup
  runs when `isGestureActive` flips).
* `release`: with a direction set, choose the snap target (lines 88-112).
* `frame`: one `animateSnap` tick.  Within the 2-degree epsilon the state
  resolves: a committed `next` turn (target -180) or committed `prev` turn
  (target 0) fires `onPageTurnComplete(targetPage)`, upon which the shell
  sets `currentPage` and the page-change effect resets rotation, direction
  and accumulator; a snap-back clears the direction and accumulator and
  pins the rotation at the target.
* `setPage`: an external page change resets the animator (lines 28-32). -/
def bookStep (numPages : ℕ) (s : BookState) (e : BookEvent) : BookState × List ℕ :=
  match e with
  | BookEvent.signal delta =>
      (⟨processGesture numPages s.page delta s.ts, s.page, none⟩, [])
  | BookEvent.release =>
      match s.snapTo, s.ts.direction with
      | none, some d =>
          (⟨s.ts, s.page, some (snapResolveTarget d s.ts.rotation s.page)⟩, [])
      | _, _ => (s, [])
  | BookEvent.frame =>
      match s.snapTo with
      | none => (s, [])
      | some (targetRot, targetPage) =>
          if |targetRot - s.ts.rotation| < 2 then
            if targetRot = -180 ∧ s.ts.direction = some Dir.next then
              (⟨⟨0, none, 0⟩, targetPage, none⟩, [targetPage])
            else if targetRot = 0 ∧ s.ts.direction = some Dir.prev then
              (⟨⟨0, none, 0⟩, targetPage, none⟩, [targetPage])
            else
              (⟨⟨targetRot, none, 0⟩, s.page, none⟩, [])
          else
            (⟨⟨snapPure targetRot s.ts.rotation, s.ts.direction, s.ts.dragAccumulator⟩,
              s.page, s.snapTo⟩, [])
  | BookEvent.setPage p =>
      if p = s.page then (s, [])
      else (⟨⟨0, none, 0⟩, p, none⟩, [])

/-- Run a list of events, collecting all completion-callback payloads. -/
def bookRun (numPages : ℕ) (s : BookState) : List BookEvent → BookState × List ℕ
  | [] => (s, [])
  | e :: es =>
      let r1 := bookStep numPages s e
      let r2 := bookRun numPages r1.1 es
      (r2.1, r1.2 ++ r2.2)

/-- The states visited while running a list of events (initial state
included). -/
def statesAlong (numPages : ℕ) (s : BookState) : List BookEvent → List BookState
  | [] => [s]
  | e :: es => s :: statesAlong numPages (bookStep numPages s e).1 es

/-- The named states of the spec's page-turn state machine. -/
inductive Phase
  | IDLE
  | DRAGGING_NEXT
  | DRAGGING_PREV
  | SNAPPING_FORWARD
  | SNAPPING_BACK
deriving DecidableEq

/-- Classify a component state as one of the spec's machine states:
snapping toward the far extreme is `SNAPPING_FORWARD` (the turn commits),
snapping toward the drag origin is `SNAPPING_BACK`. -/
def phase (s : BookState) : Phase :=
  match s.snapTo, s.ts.direction with
  | some (tr, _), some Dir.next =>
      if tr = -180 then Phase.SNAPPING_FORWARD else Phase.SNAPPING_BACK
  | some (tr, _), some Dir.prev =>
      if tr = 0 then Phase.SNAPPING_FORWARD else Phase.SNAPPING_BACK
  | some _, none => Phase.IDLE
  | none, some Dir.next => Phase.DRAGGING_NEXT
  | none, some Dir.prev => Phase.DRAGGING_PREV
  | none, none => Phase.IDLE

/-- Phases visited along a run. -/
def phaseTrace (numPages : ℕ) (s : BookState) (es : List BookEvent) : List Phase :=
  (statesAlong numPages s es).map phase


lemma clampRot_mem (r : ℚ) : -180 ≤ clampRot r ∧ clampRot r ≤ 0 := by
  unfold clampRot
  exact ⟨le_max_left _ _, max_le (by norm_num) (min_le_left _ _)⟩

lemma easeOutCubic_mem (p : ℚ) (h0 : 0 ≤ p) (h1 : p ≤ 1) :
    0 ≤ easeOutCubic p ∧ easeOutCubic p ≤ 1 := by
  unfold easeOutCubic
  constructor
  · have h2 : (1 - p) ^ 3 ≤ 1 := pow_le_one₀ (by linarith) (by linarith)
    linarith
  · have h3 : 0 ≤ (1 - p) ^ 3 := pow_nonneg (by linarith) 3
    linarith

lemma easedNextRotation_mem (acc : ℚ) :
    -180 ≤ easedNextRotation acc ∧ easedNextRotation acc ≤ 0 := by
  have hc := clampRot_mem acc
  have hp0 : 0 ≤ abs (clampRot acc) / 180 := div_nonneg (abs_nonneg _) (by norm_num)
  have hp1 : abs (clampRot acc) / 180 ≤ 1 := by
    rw [div_le_one (by norm_num : (0:ℚ) < 180)]
    exact abs_le.mpr ⟨by linarith [hc.1], by linarith [hc.2]⟩
  have he := easeOutCubic_mem _ hp0 hp1
  unfold easedNextRotation
  constructor
  · nlinarith [he.2]
  · nlinarith [he.1]

lemma easedPrevRotation_mem (acc : ℚ) :
    -180 ≤ easedPrevRotation acc ∧ easedPrevRotation acc ≤ 0 := by
  have hc := clampRot_mem (-180 + acc)
  have hp0 : 0 ≤ (180 + clampRot (-180 + acc)) / 180 :=
    div_nonneg (by linarith [hc.1]) (by norm_num)
  have hp1 : (180 + clampRot (-180 + acc)) / 180 ≤ 1 := by
    rw [div_le_one (by norm_num : (0:ℚ) < 180)]
    linarith [hc.2]
  have he := easeOutCubic_mem _ hp0 hp1
  unfold easedPrevRotation
  constructor
  · nlinarith [he.1]
  · nlinarith [he.2]

lemma gestureEffectRun_rotation_mem (numPages page : ℕ) (active : Bool) (delta : ℚ)
    (s : TurnState) (h : -180 ≤ s.rotation ∧ s.rotation ≤ 0) :
    -180 ≤ (gestureEffectRun numPages page active delta s).rotation ∧
      (gestureEffectRun numPages page active delta s).rotation ≤ 0 := by
  unfold gestureEffectRun
  cases active
  · simpa using h
  · by_cases hd : delta = 0
    · simpa [hd] using h
    · rcases hdir : s.direction with _ | d
      · simpa [hd, hdir] using h
      · rcases d
        · simpa [hd, hdir] using easedNextRotation_mem (s.dragAccumulator + delta)
        · simpa [hd, hdir] using easedPrevRotation_mem (s.dragAccumulator + delta)

lemma processGesture_rotation_mem (numPages page : ℕ) (delta : ℚ) (s : TurnState)
    (h : -180 ≤ s.rotation ∧ s.rotation ≤ 0) :
    -180 ≤ (processGesture numPages page delta s).rotation ∧
      (processGesture numPages page delta s).rotation ≤ 0 := by
  have h1 := gestureEffectRun_rotation_mem numPages page true delta s h
  have h2 := gestureEffectRun_rotation_mem numPages page true delta
    (gestureEffectRun numPages page true delta s) h1
  unfold processGesture
  split
  · exact h1
  · exact h2

/-- Invariant carried through every event: the rotation is clamped and any
pending snap target rotation is one of the two extremes. -/
def RotBounded (s : BookState) : Prop :=
  (-180 ≤ s.ts.rotation ∧ s.ts.rotation ≤ 0) ∧
    ∀ tr tp, s.snapTo = some (tr, tp) → tr = -180 ∨ tr = 0

lemma snapResolveTarget_fst (d : Dir) (rot : ℚ) (page : ℕ) :
    (snapResolveTarget d rot page).1 = -180 ∨ (snapResolveTarget d rot page).1 = 0 := by
  rcases d <;> simp only [snapResolveTarget] <;> split <;> simp

lemma bookStep_preserves (numPages : ℕ) (s : BookState) (e : BookEvent)
    (h : RotBounded s) : RotBounded (bookStep numPages s e).1 := by
  rcases e with delta | _ | _ | p
  · exact ⟨processGesture_rotation_mem _ _ _ _ h.1, by simp [bookStep]⟩
  · rcases hs : s.snapTo with _ | pr
    · rcases hd : s.ts.direction with _ | d
      · simp only [bookStep, hs, hd]
        exact h
      · constructor
        · simp only [bookStep, hs, hd]
          exact h.1
        · intro tr tp hsnap
          simp only [bookStep, hs, hd] at hsnap
          have h1 : (snapResolveTarget d s.ts.rotation s.page).1 = tr :=
            congrArg Prod.fst (Option.some.inj hsnap)
          rw [h1.symm]
          exact snapResolveTarget_fst d s.ts.rotation s.page
    · simp only [bookStep, hs]
      exact h
  · rcases hs : s.snapTo with _ | ⟨tr, tp⟩
    · simp only [bookStep, hs]
      exact h
    · have htr := h.2 tr tp hs
      constructor
      · simp only [bookStep, hs]
        split_ifs with h1 h2 h3
        · norm_num
        · norm_num
        · simp only
          rcases htr with rfl | rfl <;> norm_num
        · simp only [snapPure]
          rcases htr with rfl | rfl <;> constructor <;> linarith [h.1.1, h.1.2]
      · intro tr' tp' hsnap
        simp only [bookStep, hs] at hsnap
        by_cases h1 : |tr - s.ts.rotation| < 2
        · rw [if_pos h1] at hsnap
          split_ifs at hsnap
        · rw [if_neg h1] at hsnap
          simp only [Option.some.injEq, Prod.mk.injEq] at hsnap
          rcases hsnap with ⟨rfl, -⟩
          exact htr
  · by_cases hp : p = s.page
    · simp only [bookStep, hp, if_pos]
      simpa using h
    · constructor
      · simp only [bookStep, hp, if_neg]
        norm_num
      · intro tr tp hsnap
        simp [bookStep, hp] at hsnap

lemma bookRun_preserves (numPages : ℕ) (es : List BookEvent) :
    ∀ s : BookState, RotBounded s → RotBounded (bookRun numPages s es).1 := by
  induction es with
  | nil => intro s h; simpa [bookRun] using h
  | cons e es ih =>
      intro s h
      simp only [bookRun]
      exact ih _ (bookStep_preserves numPages s e h)

/-- Claim C1: for every sequence of injected drag deltas and snap frames
(and releases and external page changes), the animator's `currentRotation`
never leaves the closed interval [-180, 0]. -/
theorem rotation_never_leaves_interval (numPages p0 : ℕ) (events : List BookEvent) :
    -180 ≤ (bookRun numPages ⟨⟨0, none, 0⟩, p0, none⟩ events).1.ts.rotation ∧
      (bookRun numPages ⟨⟨0, none, 0⟩, p0, none⟩ events).1.ts.rotation ≤ 0 :=
  (bookRun_preserves numPages events ⟨⟨0, none, 0⟩, p0, none⟩
    ⟨⟨by norm_num, le_refl 0⟩, by simp⟩).1

/-- Claim C2: every `bookStep` fires at most one completion callback, and in
the end-to-end scenario — page 0 of a 5-page book, one injected signal of
value -190 followed by gesture end and the (immediate) snap resolution
frame — the machine passes through IDLE, DRAGGING_NEXT, SNAPPING_FORWARD
and back to IDLE, `onPageTurnComplete` fires exactly once with payload 1,
and the final rotation is 0. -/
theorem completion_callback_exactly_once :
    (∀ (numPages : ℕ) (s : BookState) (e : BookEvent),
        (bookStep numPages s e).2.length ≤ 1) ∧
    bookRun 5 bookInit [BookEvent.signal (-190), BookEvent.release, BookEvent.frame] =
      (⟨⟨0, none, 0⟩, 1, none⟩, [1]) ∧
    phaseTrace 5 bookInit [BookEvent.signal (-190), BookEvent.release, BookEvent.frame] =
      [Phase.IDLE, Phase.DRAGGING_NEXT, Phase.SNAPPING_FORWARD, Phase.IDLE] := by
  refine ⟨?_, ?_, ?_⟩
  · intro numPages s e
    rcases e with delta | _ | _ | p
    · simp [bookStep]
    · rcases hs : s.snapTo with _ | pr <;> rcases hd : s.ts.direction with _ | d <;>
        simp [bookStep, hs, hd]
    · rcases hs : s.snapTo with _ | ⟨tr, tp⟩
      · simp [bookStep, hs]
      · simp only [bookStep, hs]
        split_ifs <;> simp
    · simp only [bookStep]
      split_ifs <;> simp
  · norm_num [bookRun, bookStep, bookInit, processGesture, gestureEffectRun,
      easedNextRotation, clampRot, easeOutCubic, abs_of_nonpos, Option.some_ne_none,
      snapResolveTarget]
  · norm_num [phaseTrace, statesAlong, bookStep, bookInit, processGesture,
      gestureEffectRun, easedNextRotation, clampRot, easeOutCubic, abs_of_nonpos,
      Option.some_ne_none, snapResolveTarget, phase]

/-- Claim C3: on gesture end during a next-direction drag the animator
compares the rotation with the midpoint -90: at exactly -91 it resolves to
snapping forward (target -180, completion page advanced by one), at exactly
-89 it resolves to snapping back (target 0, page unchanged). -/
theorem midpoint_resolution (numPages page : ℕ) (acc : ℚ) :
    (bookStep numPages ⟨⟨-91, some Dir.next, acc⟩, page, none⟩ BookEvent.release).1.snapTo
        = some (-180, page + 1) ∧
    phase (bookStep numPages ⟨⟨-91, some Dir.next, acc⟩, page, none⟩ BookEvent.release).1
        = Phase.SNAPPING_FORWARD ∧
    (bookStep numPages ⟨⟨-89, some Dir.next, acc⟩, page, none⟩ BookEvent.release).1.snapTo
        = some (0, page) ∧
    phase (bookStep numPages ⟨⟨-89, some Dir.next, acc⟩, page, none⟩ BookEvent.release).1
        = Phase.SNAPPING_BACK := by
  norm_num [bookStep, snapResolveTarget, phase]

/-- Claim C9: from an idle (direction-null) state, a drag can only start
toward a page that exists — `next` needs `currentPage < pages.length - 1`,
`prev` needs `currentPage > 0` — and when the accumulated drag crosses a
lift threshold while the corresponding page is missing, the guard refuses:
the direction stays null and the rotation is untouched. -/
theorem drag_start_guard (numPages page : ℕ) (active : Bool) (delta : ℚ)
    (s : TurnState) (hdir : s.direction = none) :
    ((gestureEffectRun numPages page active delta s).direction = some Dir.next →
        page < numPages - 1) ∧
    ((gestureEffectRun numPages page active delta s).direction = some Dir.prev →
        0 < page) ∧
    (s.dragAccumulator + delta ≤ -10 → ¬page < numPages - 1 →
        (gestureEffectRun numPages page active delta s).direction = none ∧
        (gestureEffectRun numPages page active delta s).rotation = s.rotation) ∧
    (10 ≤ s.dragAccumulator + delta → ¬0 < page →
        (gestureEffectRun numPages page active delta s).direction = none ∧
        (gestureEffectRun numPages page active delta s).rotation = s.rotation) := by
  have hchar : gestureEffectRun numPages page active delta s =
      if !active then s
      else if delta = 0 then s
      else
        ⟨s.rotation,
          if s.dragAccumulator + delta ≤ -10 ∧ page < numPages - 1 then some Dir.next
          else if 10 ≤ s.dragAccumulator + delta ∧ 0 < page then some Dir.prev
          else none,
          s.dragAccumulator + delta⟩ := by
    simp only [gestureEffectRun, hdir]
  rw [hchar]
  cases active
  · simp [hdir]
  · by_cases hd : delta = 0
    · simp [hd, hdir]
    · simp only [Bool.not_true, Bool.false_eq_true, if_false, hd, ite_false]
      refine ⟨?_, ?_, ?_, ?_⟩
      · intro hnext
        split_ifs at hnext with h1 h2
        · exact h1.2
        · exact absurd hnext (by simp)
      · intro hprev
        split_ifs at hprev with h1 h2
        · exact absurd hprev (by simp)
        · exact h2.2
      · intro hacc hnp
        refine ⟨?_, trivial⟩
        split_ifs with h1 h2
        · exact absurd h1.2 hnp
        · exact absurd hacc (by linarith [h2.1])
        · rfl
      · intro hacc hnp
        refine ⟨?_, trivial⟩
        split_ifs with h1 h2
        · exact absurd h1.1 (by linarith)
        · exact absurd h2.2 hnp
        · rfl

/-- Witness for C9: at the last page (page 4 of 5) an accumulated -15 drag
crosses the lift threshold but no next page exists, so the gesture is
inert — direction stays null and the rotation stays 0. -/
theorem drag_start_guard_witness :
    (gestureEffectRun 5 4 true (-15) ⟨0, none, 0⟩).direction = none ∧
      (gestureEffectRun 5 4 true (-15) ⟨0, none, 0⟩).rotation = 0 :=
  (drag_start_guard 5 4 true (-15) ⟨0, none, 0⟩ rfl).2.2.1 (by norm_num) (by norm_num)

lemma snapPure_dist (t r : ℚ) : |t - snapPure t r| = 39 / 50 * |t - r| := by
  have h : t - snapPure t r = 39 / 50 * (t - r) := by
    unfold snapPure
    ring
  rw [h, abs_mul, abs_of_nonneg (by norm_num : (0:ℚ) ≤ 39 / 50)]

lemma snapIter_succ (t r : ℚ) (k : ℕ) :
    snapIter t (k + 1) r = snapStep t (snapIter t k r) := rfl

lemma snapIter_dist (t r : ℚ) (k : ℕ) :
    |t - snapIter t k r| ≤ (39 / 50) ^ k * |t - r| := by
  induction k with
  | zero => simp [snapIter]
  | succ k ih =>
      have hstep : |t - snapIter t (k + 1) r| ≤ 39 / 50 * |t - snapIter t k r| := by
        rw [snapIter_succ]
        unfold snapStep
        split
        · rw [sub_self, abs_zero]
          positivity
        · rw [snapPure_dist]
      calc |t - snapIter t (k + 1) r| ≤ 39 / 50 * |t - snapIter t k r| := hstep
        _ ≤ 39 / 50 * ((39 / 50) ^ k * |t - r|) := by
              exact mul_le_mul_of_nonneg_left ih (by norm_num)
        _ = (39 / 50) ^ (k + 1) * |t - r| := by ring

/-- Claim C10: for each snap target t ∈ {0, -180} and starting rotation
r ∈ [-180, 0], one raw interpolation step `r + (t - r) * 0.22` stays in the
closed interval between r and t (it moves toward t without overshooting),
the remaining distance contracts by the exact factor 0.78 each step, and
the `animateSnap` iteration reaches t exactly in finitely many frames
(20 suffice from any admissible start) because the step returns the target
outright once the distance is below the 2-degree epsilon. -/
theorem snap_interpolation_converges (t r : ℚ) (ht : t = 0 ∨ t = -180)
    (hr : -180 ≤ r ∧ r ≤ 0) :
    (min r t ≤ snapPure t r ∧ snapPure t r ≤ max r t) ∧
    |t - snapPure t r| = 39 / 50 * |t - r| ∧
    snapIter t 20 r = t := by
  refine ⟨?_, snapPure_dist t r, ?_⟩
  · rcases le_total r t with hle | hle
    · have h1 : 0 ≤ (t - r) * (22 / 100) := mul_nonneg (by linarith) (by norm_num)
      have h2 : (t - r) * (22 / 100) ≤ t - r := by nlinarith
      constructor
      · rw [min_eq_left hle]
        unfold snapPure
        linarith
      · rw [max_eq_right hle]
        unfold snapPure
        linarith
    · have h1 : (t - r) * (22 / 100) ≤ 0 :=
        mul_nonpos_of_nonpos_of_nonneg (by linarith) (by norm_num)
      have h2 : t - r ≤ (t - r) * (22 / 100) := by nlinarith
      constructor
      · rw [min_eq_right hle]
        unfold snapPure
        linarith
      · rw [max_eq_left hle]
        unfold snapPure
        linarith
  · have hd : |t - r| ≤ 180 := by
      rcases ht with h | h <;> subst h <;> exact abs_le.mpr ⟨by linarith, by linarith⟩
    have h19 : |t - snapIter t 19 r| ≤ (39 / 50) ^ 19 * 180 :=
      le_trans (snapIter_dist t r 19) (mul_le_mul_of_nonneg_left hd (by positivity))
    have hsmall : |t - snapIter t 19 r| < 2 :=
      lt_of_le_of_lt h19 (by norm_num)
    have h20 : snapIter t 20 r = snapStep t (snapIter t 19 r) := snapIter_succ t r 19
    rw [h20]
    unfold snapStep
    rw [if_pos hsmall]

/-- Witness for C10: target 0 from start -180 — the step formula lands
between, the distance contracts to 0.78 · 180, and the snap terminates at
the target within 20 frames. -/
theorem snap_interpolation_converges_witness :
    (min (-180 : ℚ) 0 ≤ snapPure 0 (-180) ∧ snapPure 0 (-180) ≤ max (-180 : ℚ) 0) ∧
    |(0 : ℚ) - snapPure 0 (-180)| = 39 / 50 * |(0 : ℚ) - (-180)| ∧
    snapIter 0 20 (-180) = 0 :=
  snap_interpolation_converges 0 (-180) (Or.inl rfl) (by norm_num)

/-- Detected hand side, the value of the ambient `__HAND_SIDE` signal read
by BookView's hand-mode loop. -/
inductive Side
  | left
  | right
deriving DecidableEq

/-- BookView hand mode maps a left hand to a `next` flip and a right hand
to a `prev` flip (reversed because the camera mirrors). -/
def dirOfSide : Side → Dir
  | Side.left => Dir.next
  | Side.right => Dir.prev

/-- Debounce/latch controller state of BookView's hand-mode loop:
`holdStartRef`, `latchedRef` and `cooldownRef` (the time until which the
cooldown runs). -/
structure HandCtrl where
  holdStart : Option ℚ
  latched : Bool
  cooldownUntil : ℚ
deriving DecidableEq

/-- Initial controller state: `holdStartRef = null`, `latchedRef = false`,
`cooldownRef = 0`. -/
def handInit : HandCtrl := ⟨none, false, 0⟩

/-- One frame of BookView's hand-mode loop (lines 182-222), at wall-clock
time `now` with detected side `side`.  Returns the new state and the flip
intent fired this frame, if any.

* No side: `holdStartRef.current = null; latchedRef.current = false` and
  nothing fires.
* Side present: the hold timer starts if unset (the source's falsy check
  `!holdStartRef.current` also treats a stored time 0 as unset, which the
  embedding reproduces); then with `held = now - holdStart`, a flip of
  `dirOfSide side` fires iff `!latched && held >= 200 && now >= cooldown`,
  which also sets `latched = true` and `cooldown = now + 1000`. -/
def handStep (st : HandCtrl) (now : ℚ) (side : Option Side) : HandCtrl × Option Dir :=
  match side with
  | none => (⟨none, false, st.cooldownUntil⟩, none)
  | some s =>
      let hs : ℚ :=
        match st.holdStart with
        | none => now
        | some h => if h = 0 then now else h
      if st.latched = false ∧ 200 ≤ now - hs ∧ st.cooldownUntil ≤ now then
        (⟨some hs, true, now + 1000⟩, some (dirOfSide s))
      else
        (⟨some hs, st.latched, st.cooldownUntil⟩, none)

/-- Run the controller over a trace of (time, detected side) frames,
collecting the fired flip intents in order. -/
def handRun (st : HandCtrl) : List (ℚ × Option Side) → HandCtrl × List Dir
  | [] => (st, [])
  | (now, side) :: tr =>
      let r1 := handStep st now side
      let r2 := handRun r1.1 tr
      (r2.1, r1.2.toList ++ r2.2)

lemma handStep_fresh (now : ℚ) (s : Side) (lat : Bool) (cd : ℚ) :
    handStep ⟨none, lat, cd⟩ now (some s) = (⟨some now, lat, cd⟩, none) := by
  simp only [handStep]
  rw [if_neg]
  rintro ⟨-, h, -⟩
  linarith

lemma handStep_armed_fire (t0 now : ℚ) (s : Side) (cd : ℚ) (h0 : ¬t0 = 0)
    (htrig : 200 ≤ now - t0) (hcd : cd ≤ now) :
    handStep ⟨some t0, false, cd⟩ now (some s) =
      (⟨some t0, true, now + 1000⟩, some (dirOfSide s)) := by
  simp only [handStep]
  rw [if_neg h0, if_pos ⟨trivial, htrig, hcd⟩]

lemma handStep_armed_hold (t0 now : ℚ) (s : Side) (lat : Bool) (cd : ℚ) (h0 : ¬t0 = 0)
    (hno : ¬(lat = false ∧ 200 ≤ now - t0 ∧ cd ≤ now)) :
    handStep ⟨some t0, lat, cd⟩ now (some s) = (⟨some t0, lat, cd⟩, none) := by
  simp only [handStep]
  rw [if_neg h0, if_neg hno]

lemma handStep_latched (st : HandCtrl) (now : ℚ) (s : Side) (hl : st.latched = true) :
    (handStep st now (some s)).2 = none ∧
      (handStep st now (some s)).1.latched = true ∧
      (handStep st now (some s)).1.cooldownUntil = st.cooldownUntil := by
  have hno : ¬(st.latched = false ∧ 200 ≤ now - (match st.holdStart with
      | none => now
      | some h => if h = 0 then now else h) ∧ st.cooldownUntil ≤ now) := by
    rw [hl]
    rintro ⟨h, -⟩
    exact absurd h (by simp)
  simp only [handStep, if_neg hno]
  exact ⟨trivial, hl, trivial⟩

lemma latched_silent (tr : List (ℚ × Option Side)) :
    ∀ st : HandCtrl, st.latched = true → (∀ p ∈ tr, p.2 ≠ none) →
      (handRun st tr).2 = [] := by
  induction tr with
  | nil => intro st _ _; rfl
  | cons p tr ih =>
      intro st hl hp
      obtain ⟨now, side⟩ := p
      rcases side with _ | s
      · exact absurd rfl (hp (now, none) (by simp))
      · have h1 := handStep_latched st now s hl
        simp only [handRun, h1.1, Option.toList_none, List.nil_append]
        exact ih _ h1.2.1 (fun q hq => hp q (List.mem_cons_of_mem _ hq))

lemma armed_run (s : Side) (t0 : ℚ) (h0 : 0 < t0) (tr : List (ℚ × Option Side))
    (hsides : ∀ p ∈ tr, p.2 = some s) (htimes : ∀ p ∈ tr, t0 ≤ p.1) :
    (handRun ⟨some t0, false, 0⟩ tr).2 =
      if ∃ p ∈ tr, t0 + 200 ≤ p.1 then [dirOfSide s] else [] := by
  induction tr with
  | nil => simp [handRun]
  | cons p tr ih =>
      obtain ⟨t, side⟩ := p
      have hside : side = some s := hsides (t, side) (by simp)
      have ht : t0 ≤ t := htimes (t, side) (by simp)
      subst hside
      by_cases htrig : 200 ≤ t - t0
      · have hfire := handStep_armed_fire t0 t s 0 (by linarith) htrig (by linarith)
        simp only [handRun, hfire, Option.toList_some, List.singleton_append]
        have hrest := latched_silent tr ⟨some t0, true, t + 1000⟩ rfl
          (fun q hq => by rw [hsides q (List.mem_cons_of_mem _ hq)]; simp)
        rw [hrest, if_pos ⟨(t, some s), by simp, by linarith⟩]
      · have hhold := handStep_armed_hold t0 t s false 0 (by linarith)
          (fun hc => htrig hc.2.1)
        simp only [handRun, hhold, Option.toList_none, List.nil_append]
        have hcond : (∃ p ∈ (t, some s) :: tr, t0 + 200 ≤ p.1) ↔
            (∃ p ∈ tr, t0 + 200 ≤ p.1) := by
          constructor
          · rintro ⟨p, hp, hle⟩
            rcases List.mem_cons.mp hp with rfl | hp'
            · exact absurd (by linarith : (200:ℚ) ≤ t - t0) htrig
            · exact ⟨p, hp', hle⟩
          · rintro ⟨p, hp, hle⟩
            exact ⟨p, List.mem_cons_of_mem _ hp, hle⟩
        rw [ih (fun q hq => hsides q (List.mem_cons_of_mem _ hq))
          (fun q hq => htimes q (List.mem_cons_of_mem _ hq))]
        simp only [hcond]

/-- Claim C4: a continuous single-side hold (no gap) lasting through the
200ms hold threshold fires exactly one flip intent — the singleton
`dirOfSide s` — because the latch set by the first trigger blocks any
further trigger while the side stays present.  The trace starts the hold at
`t0 > 0`, every later frame still detects side `s` within the 2000ms hold,
and at least one frame happens at or after `t0 + 200`. -/
theorem one_intent_per_continuous_hold (s : Side) (t0 : ℚ)
    (rest : List (ℚ × Option Side)) (h0 : 0 < t0)
    (hsides : ∀ p ∈ rest, p.2 = some s)
    (htimes : ∀ p ∈ rest, t0 ≤ p.1 ∧ p.1 ≤ t0 + 2000)
    (hheld : ∃ p ∈ rest, t0 + 200 ≤ p.1) :
    (handRun handInit ((t0, some s) :: rest)).2 = [dirOfSide s] := by
  simp only [handRun, handInit, handStep_fresh, Option.toList_none, List.nil_append]
  rw [armed_run s t0 h0 rest hsides (fun p hp => (htimes p hp).1), if_pos hheld]

/-- Witness for C4: a left hand held from t=1000 to t=3000 with frames in
between fires exactly one `next` intent. -/
theorem one_intent_per_continuous_hold_witness :
    (handRun handInit [(1000, some Side.left), (1100, some Side.left),
        (1250, some Side.left), (3000, some Side.left)]).2 = [Dir.next] :=
  one_intent_per_continuous_hold Side.left 1000
    [(1100, some Side.left), (1250, some Side.left), (3000, some Side.left)]
    (by norm_num) (by decide) (by intro p hp; fin_cases hp <;> norm_num)
    ⟨(1250, some Side.left), by decide, by norm_num⟩

/-- Counterexample to claim C5 as stated: the hand-mode loop resets the
hold timer only when the side *disappears* (`if (!rawSide)`), not when it
*changes*.  Starting a hold with the left hand at t=1000 and switching to
the right hand at t=1100 keeps `holdStart = 1000`, and at t=1210 (110ms
after the change, but 210ms after the hold began) a `prev` intent fires —
under the claim the timer would have restarted at the change and nothing
could fire from this alternating input. -/
theorem hold_timer_side_change_counterexample :
    (handStep ⟨some 1000, false, 0⟩ 1100 (some Side.right)).1.holdStart = some 1000 ∧
    (handRun handInit [(1000, some Side.left), (1100, some Side.right),
        (1210, some Side.right)]).2 = [Dir.prev] := by
  constructor
  · norm_num [handStep]
  · norm_num [handRun, handStep, handInit, dirOfSide]

lemma short_hold_silent (t0 : ℚ) (h0 : 0 < t0) (tr : List (ℚ × Option Side))
    (htr : ∀ p ∈ tr, t0 ≤ p.1 ∧ (p.2 ≠ none → p.1 ≤ t0 + 150)) :
    ∀ st : HandCtrl, st.latched = false → st.cooldownUntil = 0 →
      (st.holdStart = none ∨ ∃ h, st.holdStart = some h ∧ t0 ≤ h) →
      (handRun st tr).2 = [] := by
  induction tr with
  | nil => intro st _ _ _; rfl
  | cons p tr ih =>
      intro st hlat hcd hhs
      obtain ⟨t, side⟩ := p
      have hp := htr (t, side) (by simp)
      have htail : ∀ q ∈ tr, t0 ≤ q.1 ∧ (q.2 ≠ none → q.1 ≤ t0 + 150) :=
        fun q hq => htr q (List.mem_cons_of_mem _ hq)
      rcases side with _ | s
      · have hstep : handStep st t none = (⟨none, false, st.cooldownUntil⟩, none) := rfl
        simp only [handRun, hstep, Option.toList_none, List.nil_append]
        exact ih htail _ rfl (by simpa using hcd) (Or.inl rfl)
      · have ht : t0 ≤ t := hp.1
        have ht150 : t ≤ t0 + 150 := hp.2 (by simp)
        rcases hhs with hnone | ⟨hh, hsome, hge⟩
        · have hst : st = ⟨none, false, 0⟩ := by
            obtain ⟨a, b, c⟩ := st
            simp_all
          subst hst
          simp only [handRun, handStep_fresh, Option.toList_none, List.nil_append]
          exact ih htail _ rfl rfl (Or.inr ⟨t, rfl, ht⟩)
        · have hst : st = ⟨some hh, false, 0⟩ := by
            obtain ⟨a, b, c⟩ := st
            simp_all
          subst hst
          have hhold := handStep_armed_hold hh t s false 0 (by linarith)
            (by rintro ⟨-, habs, -⟩; linarith)
          simp only [handRun, hhold, Option.toList_none, List.nil_append]
          exact ih htail _ rfl rfl (Or.inr ⟨hh, rfl, hge⟩)

/-- Claim C5 (amended): the hold timer resets to null whenever the detected
hand *disappears* (side `none`), and a 150ms presence followed by
disappearance fires nothing; but — contrary to the claim as stated — a
*change* of detected side with no gap does not restart the timer (see the
counterexample), so the no-intent guarantee is stated for traces whose
present-side frames all lie within 150ms of the start of the hold,
regardless of which side each frame detects. -/
theorem hold_timer_reset_on_disappear :
    (∀ (st : HandCtrl) (now : ℚ),
        (handStep st now none).1.holdStart = none ∧ (handStep st now none).2 = none) ∧
    (∀ t0 : ℚ, 0 < t0 → ∀ tr : List (ℚ × Option Side),
        (∀ p ∈ tr, t0 ≤ p.1 ∧ (p.2 ≠ none → p.1 ≤ t0 + 150)) →
        (handRun handInit tr).2 = []) := by
  constructor
  · intro st now
    exact ⟨rfl, rfl⟩
  · intro t0 h0 tr htr
    exact short_hold_silent t0 h0 tr htr handInit rfl rfl (Or.inl rfl)

/-- Witness for the amended C5: a hand present at t=1000 and t=1100 (within
the 150ms window) that disappears at t=1300 fires no intent. -/
theorem hold_timer_reset_on_disappear_witness :
    (handRun handInit [(1000, some Side.left), (1100, some Side.left),
        (1300, none)]).2 = [] :=
  hold_timer_reset_on_disappear.2 1000 (by norm_num) _
    (by intro p hp; fin_cases hp <;> norm_num)

/-- Claim C6: firing a flip intent sets the cooldown to `now + 1000`, and
while the clock is inside the cooldown window (`now < cooldownUntil`) no
frame can fire an intent, whatever the state and whichever side — including
a fully qualifying opposite-direction hold; an intent is possible again
only once the cooldown has elapsed (`cooldownUntil ≤ now` is part of the
trigger condition). -/
theorem cooldown_blocks_intents :
    (∀ (st : HandCtrl) (now : ℚ) (side : Option Side),
        (handStep st now side).2 ≠ none →
        (handStep st now side).1.cooldownUntil = now + 1000) ∧
    (∀ (st : HandCtrl) (now : ℚ) (side : Option Side),
        now < st.cooldownUntil → (handStep st now side).2 = none) := by
  constructor
  · intro st now side hfire
    rcases side with _ | s
    · exact absurd rfl hfire
    · simp only [handStep] at hfire ⊢
      split_ifs at hfire ⊢
      · rfl
      · exact absurd rfl hfire
  · intro st now side hlt
    rcases side with _ | s
    · rfl
    · simp only [handStep]
      rw [if_neg]
      rintro ⟨-, -, hc⟩
      linarith

/-- Witness for C6: a qualifying hold at t=400 fires and sets the cooldown
to 1400; with that cooldown pending, a fully qualifying opposite-side hold
at t=700 (held 600ms, latch clear) fires nothing. -/
theorem cooldown_blocks_intents_witness :
    (handStep ⟨some 100, false, 0⟩ 400 (some Side.left)).2 ≠ none ∧
    (handStep ⟨some 100, false, 0⟩ 400 (some Side.left)).1.cooldownUntil = 400 + 1000 ∧
    (handStep ⟨some 100, false, 1400⟩ 700 (some Side.right)).2 = none := by
  have h1 : (handStep ⟨some 100, false, 0⟩ 400 (some Side.left)).2 ≠ none := by
    rw [handStep_armed_fire 100 400 Side.left 0 (by norm_num) (by norm_num) (by norm_num)]
    simp
  exact ⟨h1, cooldown_blocks_intents.1 _ 400 _ h1,
    cooldown_blocks_intents.2 ⟨some 100, false, 1400⟩ 700 (some Side.right) (by norm_num)⟩

/-- A downsampled grayscale frame, as pixel value at column x of row y
(the source stores rows consecutively in a `Uint8Array` and indexes
`idx = y * width + x`; every access made by the algorithm stays inside one
row, so the coordinate view is exact).  Values are the integers 0..255
produced by the grayscale conversion into the byte buffer. -/
def Frame : Type := ℤ → ℤ → ℤ

/-- JavaScript `Math.abs` on integers. -/
def iabs (z : ℤ) : ℤ := if z < 0 then -z else z

/-- Sample-grid columns: `for (let x = 10; x < width - 10; x += 4)` with
width 64, hence x ∈ {10, 14, ..., 50}. -/
def gridXs : List ℤ := [10, 14, 18, 22, 26, 30, 34, 38, 42, 46, 50]

/-- Sample-grid rows: `for (let y = 10; y < height - 10; y += 4)` with
height 48, hence y ∈ {10, 14, ..., 34}. -/
def gridYs : List ℤ := [10, 14, 18, 22, 26, 30, 34]

/-- The sample grid, iterated rows-outer exactly like the nested loops. -/
def samplePoints : List (ℤ × ℤ) :=
  gridYs.flatMap (fun y => gridXs.map (fun x => (x, y)))

/-- Edge strength at a sample point: `|prev[idx - 1] - prev[idx + 1]|`,
the horizontal gradient of the previous frame. -/
def gradX (p : Frame) (x y : ℤ) : ℤ := iabs (p (x - 1) y - p (x + 1) y)

/-- Match error of moving a sample point of the previous frame by `dx`:
`Math.abs(currentFrame[y*width + (x+dx)] - prevVal)`; at `dx = 0` this is
the source's `zeroDiff`. -/
def matchDiff (p c : Frame) (x y dx : ℤ) : ℤ := iabs (c (x + dx) y - p x y)

/-- The search window `dx = -4..4` with `dx === 0` skipped, in loop order. -/
def searchOffsets : List ℤ := [-4, -3, -2, -1, 1, 2, 3, 4]

/-- The block-matching noise-gate fold (useOpticalFlow lines 111-129):
state `(bestDx, minDiff)` starting at `(0, zeroDiff)`; a new offset is
adopted only if its error beats the current minimum by more than 20%
(`diff < minDiff * 0.8`; on integer errors this is exactly
`5 * diff < 4 * minDiff`, which keeps the search in ℤ). -/
def bestMatchFold (p c : Frame) (x y : ℤ) (l : List ℤ) (st : ℤ × ℤ) : ℤ × ℤ :=
  l.foldl
    (fun acc dx =>
      if 5 * matchDiff p c x y dx < 4 * acc.2 then (dx, matchDiff p c x y dx) else acc)
    st

/-- The offset finally attributed to a sample point. -/
def bestDx (p c : Frame) (x y : ℤ) : ℤ :=
  (bestMatchFold p c x y searchOffsets (0, matchDiff p c x y 0)).1

/-- Offsets of the confident points of a frame pair: sample points that
pass the edge-strength gate (`gx < 30` skips the point) and settle on a
nonzero offset (`bestDx !== 0` guards both `deltaX` and `validPoints`). -/
def validOffsets (p c : Frame) : List ℤ :=
  (samplePoints.filter (fun q => !(gradX p q.1 q.2 < 30))).filterMap
    (fun q => if bestDx p c q.1 q.2 = 0 then none else some (bestDx p c q.1 q.2))

/-- The source's `validPoints` counter. -/
def validPoints (p c : Frame) : ℕ := (validOffsets p c).length

/-- The source's `deltaX` accumulator (sum of accepted offsets). -/
def deltaX (p c : Frame) : ℤ := (validOffsets p c).sum

/-- Average accepted offset `avgDx = deltaX / validPoints`. -/
def avgDx (p c : Frame) : ℚ := (deltaX p c : ℚ) / (validPoints p c : ℚ)

/-- Frame emission (useOpticalFlow lines 139-152): a gesture delta
`avgDx * 30` is passed to `onGesture` only when `validPoints > 5` and the
deadzone is exceeded (`Math.abs(avgDx) > 0.5`); otherwise the frame
produces no motion signal at all. -/
def processFrameEmit (p c : Frame) : Option ℚ :=
  if 5 < validPoints p c then
    if 1 / 2 < |avgDx p c| then some (avgDx p c * 30) else none
  else none

/-- Previous frame of the deadzone demo (row 10, zero elsewhere): each grid
column 10+4i carries a distinctive value 40+10i, and each column's right
neighbour carries 200 so the edge-strength gate passes at every grid
column of the row. -/
def prevProfile (x : ℤ) : ℤ :=
  if x % 4 = 2 ∧ 10 ≤ x ∧ x ≤ 50 then 40 + 10 * ((x - 10) / 4)
  else if x % 4 = 3 ∧ 11 ≤ x ∧ x ≤ 51 then 200
  else 0

/-- Current frame of the deadzone demo: the distinctive value of grid
column i reappears displaced by the intended offset (+2 for the first
three columns, then -1, -1, -1, +1, +1, -1, -1), and column 50 gets no
match at all, so exactly ten points are confident with offsets summing
to 3 — an average of 0.3 pixels. -/
def currProfile (x : ℤ) : ℤ :=
  if x = 12 then 40 else if x = 16 then 50 else if x = 20 then 60
  else if x = 21 then 70 else if x = 25 then 80 else if x = 29 then 90
  else if x = 35 then 100 else if x = 39 then 110 else if x = 41 then 120
  else if x = 45 then 130 else 0

/-- Demo previous frame. -/
def prevDemo : Frame := fun x y => if y = 10 then prevProfile x else 0

/-- Demo current frame. -/
def currDemo : Frame := fun x y => if y = 10 then currProfile x else 0

/-- Claim C7: a frame emits a gesture delta iff the number of confident
points exceeds 5 *and* the average offset magnitude exceeds the 0.5px
deadzone; moreover the concrete demo frame pair, with ten confident points
whose average offset is exactly 0.3px, produces no `onGesture` call at all
(not a small nonzero delta). -/
theorem optical_flow_deadzone :
    (∀ p c : Frame, (processFrameEmit p c).isSome ↔
        5 < validPoints p c ∧ 1 / 2 < |avgDx p c|) ∧
    validPoints prevDemo currDemo = 10 ∧
    avgDx prevDemo currDemo = 3 / 10 ∧
    processFrameEmit prevDemo currDemo = none := by
  have hvo : validOffsets prevDemo currDemo = [2, 2, 2, -1, -1, -1, 1, 1, -1, -1] := by
    decide
  have hvp : validPoints prevDemo currDemo = 10 := by
    unfold validPoints
    rw [hvo]
    rfl
  have hdx : deltaX prevDemo currDemo = 3 := by
    unfold deltaX
    rw [hvo]
    rfl
  have havg : avgDx prevDemo currDemo = 3 / 10 := by
    unfold avgDx
    rw [hdx, hvp]
    norm_num
  refine ⟨?_, hvp, havg, ?_⟩
  · intro p c
    unfold processFrameEmit
    split_ifs with h1 h2
    · simp only [Option.isSome_some, true_iff]
      exact ⟨h1, h2⟩
    · simp only [Option.isSome_none, Bool.false_eq_true, false_iff, not_and]
      intro _
      exact h2
    · simp only [Option.isSome_none, Bool.false_eq_true, false_iff, not_and]
      intro h
      exact absurd h h1
  · unfold processFrameEmit
    rw [if_pos (by rw [hvp]; norm_num),
      if_neg (by rw [havg, abs_of_nonneg (show (0:ℚ) ≤ 3 / 10 by norm_num)]; norm_num)]

lemma iabs_nonneg (z : ℤ) : 0 ≤ iabs z := by
  unfold iabs
  split <;> omega

lemma matchDiff_nonneg (p c : Frame) (x y dx : ℤ) : 0 ≤ matchDiff p c x y dx :=
  iabs_nonneg _

/-- Invariant of the noise-gate fold: the running minimum is between 0 and
the zero-offset error, the candidate offset stays in the search window,
and a nonzero candidate is only ever one whose own error is recorded and
beats the zero-offset error by more than 20%. -/
def GateInv (p c : Frame) (x y : ℤ) (st : ℤ × ℤ) : Prop :=
  0 ≤ st.2 ∧ st.2 ≤ matchDiff p c x y 0 ∧ -4 ≤ st.1 ∧ st.1 ≤ 4 ∧
    (st.1 ≠ 0 → st.2 = matchDiff p c x y st.1 ∧ 5 * st.2 < 4 * matchDiff p c x y 0)

lemma bestMatchFold_inv (p c : Frame) (x y : ℤ) (l : List ℤ)
    (hl : ∀ d ∈ l, d ≠ 0 ∧ -4 ≤ d ∧ d ≤ 4) :
    ∀ st : ℤ × ℤ, GateInv p c x y st → GateInv p c x y (bestMatchFold p c x y l st) := by
  induction l with
  | nil => intro st h; exact h
  | cons d l ih =>
      intro st h
      have hd := hl d (by simp)
      have hcons : bestMatchFold p c x y (d :: l) st =
          bestMatchFold p c x y l
            (if 5 * matchDiff p c x y d < 4 * st.2 then (d, matchDiff p c x y d) else st) :=
        rfl
      rw [hcons]
      refine ih (fun q hq => hl q (List.mem_cons_of_mem _ hq)) _ ?_
      split_ifs with hc
      · have hzd := h.2.1
        have hz0 := matchDiff_nonneg p c x y 0
        refine ⟨matchDiff_nonneg p c x y d, by linarith, hd.2.1, hd.2.2, ?_⟩
        intro _
        exact ⟨rfl, by linarith⟩
      · exact h

/-- Claim C8: in the ±4px block-matching search, the offset finally
attributed to a sample point always lies in [-4, 4], and whenever it is
nonzero its match error is strictly below 0.8 times the zero-offset match
error (at least 20% better) — otherwise the point's offset stays 0 (and,
by the definition of `validOffsets`, is then not counted as confident). -/
theorem sticky_zero_offset (p c : Frame) (x y : ℤ) (h : bestDx p c x y ≠ 0) :
    (-4 ≤ bestDx p c x y ∧ bestDx p c x y ≤ 4) ∧
    (matchDiff p c x y (bestDx p c x y) : ℚ) < 4 / 5 * (matchDiff p c x y 0 : ℚ) := by
  have hinit : GateInv p c x y (0, matchDiff p c x y 0) :=
    ⟨matchDiff_nonneg p c x y 0, le_refl _, by norm_num, by norm_num,
      fun h0 => absurd rfl h0⟩
  have hinv := bestMatchFold_inv p c x y searchOffsets (by decide)
    (0, matchDiff p c x y 0) hinit
  unfold bestDx at h ⊢
  obtain ⟨-, -, h3, h4, h5⟩ := hinv
  obtain ⟨heq, hlt⟩ := h5 h
  refine ⟨⟨h3, h4⟩, ?_⟩
  rw [heq] at hlt
  have hq : (5 : ℚ) * (matchDiff p c x y
        ((bestMatchFold p c x y searchOffsets (0, matchDiff p c x y 0)).1) : ℚ) <
      4 * (matchDiff p c x y 0 : ℚ) := by
    exact_mod_cast hlt
  linarith

/-- Previous frame of the C8 witness: a single bright pixel at x = 30. -/
def prevEdge : Frame := fun x _ => if x = 30 then 100 else 0

/-- Current frame of the C8 witness: the bright pixel moved to x = 31. -/
def currEdge : Frame := fun x _ => if x = 31 then 100 else 0

/-- Witness for C8: the point (30, 10) settles on offset +1 (a perfect
match one pixel to the right), and its error 0 beats 0.8 times the
zero-offset error 100. -/
theorem sticky_zero_offset_witness :
    bestDx prevEdge currEdge 30 10 = 1 ∧
    ((-4 ≤ bestDx prevEdge currEdge 30 10 ∧ bestDx prevEdge currEdge 30 10 ≤ 4) ∧
      (matchDiff prevEdge currEdge 30 10 (bestDx prevEdge currEdge 30 10) : ℚ) <
        4 / 5 * (matchDiff prevEdge currEdge 30 10 0 : ℚ)) :=
  ⟨by decide, sticky_zero_offset prevEdge currEdge 30 10 (by decide)⟩
